import Mathlib

/-!
Shallow embedding of the reconciliation / broadcast core of
src/03-human-review-async.ts (the SSE-enabled variant: webhookHandler,
updateWithHumanReview, broadcastSseEvent, the /sse route and processEmails).

The MySQL table email_classifications is modelled as a list of rows; each
awaited query is one atomic step.  JavaScript string operations used by the
handler (String.prototype.includes, String.prototype.replace with a string
pattern, which replaces only the first occurrence) are modelled on
List Char.  JavaScript truthiness tests on the strings and booleans the
handler inspects are modelled explicitly (undefined and the empty string
are falsy).
-/

namespace HumanReview

/-- JS s.includes(pat) on char lists: does pat occur as a contiguous
substring of s? -/
def hasSubstr (pat : List Char) : List Char → Bool
  | [] => pat.isEmpty
  | c :: rest => pat.isPrefixOf (c :: rest) || hasSubstr pat rest

/-- JS s.replace(pat, repl) with a string pattern: replaces only the first
occurrence of pat, leaves s unchanged when pat does not occur. -/
def replaceFirstAux (pat repl : List Char) : List Char → List Char
  | [] => []
  | c :: rest =>
    if pat.isPrefixOf (c :: rest) then repl ++ (c :: rest).drop pat.length
    else c :: replaceFirstAux pat repl rest

/-- JS s.includes(pat) on strings. -/
def jsIncludes (s pat : String) : Bool :=
  hasSubstr pat.toList s.toList

/-- JS s.replace(pat, repl) on strings (first occurrence only; an empty
pattern matches at index 0, as in JS). -/
def jsReplace (s pat repl : String) : String :=
  if pat.toList.isEmpty then ⟨repl.toList ++ s.toList⟩
  else ⟨replaceFirstAux pat.toList repl.toList s.toList⟩

/-- JS truthiness of a possibly-undefined string (undefined and the empty
string are falsy). -/
def truthyStr : Option String → Bool
  | none => false
  | some s => decide (s ≠ "")

/-- One row of the email_classifications table (schema from setup.sql).
Timestamps are not modelled. -/
structure EmailRecord where
  id : String
  subject : String
  body : String
  emailTo : String
  emailFrom : String
  classification : String
  humanClassification : Option String
  humanComment : Option String
  hasHumanReview : Bool
  status : String
deriving Repr, DecidableEq

/-- spec.kwargs of an inbound HumanLayer webhook (the fields the handler
reads; a missing field is none). -/
structure WebhookKwargs where
  call_id : Option String
  classification : Option String
deriving Repr, DecidableEq

/-- status of an inbound webhook. -/
structure WebhookStatus where
  approved : Option Bool
  comment : Option String
deriving Repr, DecidableEq

/-- An inbound webhook body.  specKwargs = none models a body whose
spec or spec.kwargs is missing (webhook.spec?.kwargs is falsy). -/
structure Webhook where
  specKwargs : Option WebhookKwargs
  status : Option WebhookStatus
deriving Repr, DecidableEq

/-- Responses the webhook route sends:  res.status(400).json {error, details}
or res.json {status}. -/
inductive WebhookResponse where
  | badRequest (error details : String)
  | jsonStatus (status : String)
deriving Repr, DecidableEq

/-- The payload updateWithHumanReview hands to broadcastSseEvent
(type: update; the ISO timestamp is not modelled). -/
structure UpdateEvent where
  callId : String
  humanClassification : String
  humanComment : String
deriving Repr, DecidableEq

/-- SELECT ... WHERE id = ? followed by rows[0]: the first row whose id
matches. -/
def getRecord : List EmailRecord → String → Option EmailRecord
  | [], _ => none
  | r :: rest, callId => if r.id == callId then some r else getRecord rest callId

/-- The SET clause of updateWithHumanReview's UPDATE applied to one row. -/
def applyUpdate (label comment : String) (r : EmailRecord) : EmailRecord :=
  { r with humanClassification := some label,
           humanComment := some comment,
           status := "completed",
           hasHumanReview := true }

/-- UPDATE email_classifications SET ... WHERE id = ?, one atomic query:
every row whose id matches is rewritten; the second component is
affectedRows (the driver connects with the FOUND_ROWS flag, so this is the
number of matched rows). -/
def sqlUpdateCompleted (store : List EmailRecord) (callId label comment : String) :
    List EmailRecord × Nat :=
  (store.map (fun r => if r.id == callId then applyUpdate label comment r else r),
   (store.filter (fun r => r.id == callId)).length)

/-- An SSE client (an index into sseClients; the Response handle itself is
opaque). -/
abbrev ClientId := Nat

/-- broadcastSseEvent: sseClients.forEach(clientRes => clientRes.write(...)).
writeFails says which clients' write throws.  forEach has no per-client
error handling, so the first throwing write aborts the iteration: the
result is the list of clients written before the failure, and the client
whose write threw (none when every write succeeded). -/
def broadcastSseEvent (clients : List ClientId) (writeFails : ClientId → Bool) :
    List ClientId × Option ClientId :=
  match clients with
  | [] => ([], none)
  | c :: rest =>
    if writeFails c then ([], some c)
    else
      let res := broadcastSseEvent rest writeFails
      (c :: res.1, res.2)

/-- updateWithHumanReview: runs the UPDATE; when affectedRows is 0 it only
logs, otherwise it builds the update payload and broadcasts it.  Any error
thrown while broadcasting is caught by the function's own catch block
(which logs and swallows it), so the registry is never modified here and
the caller sees no failure.  Result: (new store, payload broadcast if any,
registry afterwards, clients actually delivered to). -/
def updateWithHumanReview (store : List EmailRecord) (clients : List ClientId)
    (writeFails : ClientId → Bool) (callId label comment : String) :
    List EmailRecord × Option UpdateEvent × List ClientId × List ClientId :=
  let upd := sqlUpdateCompleted store callId label comment
  if upd.2 = 0 then (upd.1, none, clients, [])
  else
    let ev : UpdateEvent := ⟨callId, label, comment⟩
    let br := broadcastSseEvent clients writeFails
    (upd.1, some ev, clients, br.1)

/-- The human classification derived from the webhook (lines: if
webhook.status?.approved && webhook.spec.kwargs then kwargs.classification
else if webhook.status?.comment?.includes("manual classify:") then
comment.replace("manual classify: ", "")).  none models the variable
staying null/undefined. -/
def deriveHumanClassification (w : Webhook) : Option String :=
  match w.specKwargs with
  | none => none
  | some kw =>
    if w.status.bind (fun st => st.approved) = some true then kw.classification
    else
      match w.status.bind (fun st => st.comment) with
      | some c =>
        if jsIncludes c "manual classify:" then
          some (jsReplace c "manual classify: " "")
        else none
      | none => none

/-- humanClassification || "read": the JS falsy fallback. -/
def finalLabelOf (w : Webhook) : String :=
  match deriveHumanClassification w with
  | some c => if c = "" then "read" else c
  | none => "read"

/-- webhook.status?.comment || "". -/
def commentOf (w : Webhook) : String :=
  match w.status.bind (fun st => st.comment) with
  | some c => c
  | none => ""

/-- Outcome of the handler's validation and SELECT-status phase. -/
inductive CheckOutcome where
  | earlyExit (resp : WebhookResponse)
  | proceed (callId : String)
deriving Repr, DecidableEq

/-- The webhook handler up to and including the SELECT status query:
structure checks (400s), then the dedup check on the stored status
(no row or falsy status: "no record found"; status completed:
"already processed"); otherwise reconciliation proceeds with the call id. -/
def checkPhase (store : List EmailRecord) (w : Webhook) : CheckOutcome :=
  match w.specKwargs with
  | none => .earlyExit (.badRequest "Invalid webhook structure" "Missing spec.kwargs")
  | some kw =>
    if !truthyStr kw.call_id then
      .earlyExit (.badRequest "Missing call_id" "call_id not found in kwargs")
    else
      let callId := kw.call_id.getD ""
      match getRecord store callId with
      | none => .earlyExit (.jsonStatus "no record found")
      | some r =>
        if r.status = "" then .earlyExit (.jsonStatus "no record found")
        else if r.status = "completed" then .earlyExit (.jsonStatus "already processed")
        else .proceed callId

/-- Result of one webhookHandler run: final store, HTTP response, payload
broadcast (if any), clients the broadcast reached. -/
structure HandlerResult where
  store : List EmailRecord
  response : WebhookResponse
  event : Option UpdateEvent
  delivered : List ClientId
deriving Repr, DecidableEq

/-- webhookHandler run to completion with no interleaving: validation and
dedup check, then updateWithHumanReview with the derived label and the raw
comment, then res.json({status: "ok"}).  (The fetchAllClassifications +
logEmails step after the update only reads the store and logs, so it does
not appear in the state.) -/
def webhookHandler (store : List EmailRecord) (clients : List ClientId)
    (writeFails : ClientId → Bool) (w : Webhook) : HandlerResult :=
  match checkPhase store w with
  | .earlyExit resp => ⟨store, resp, none, []⟩
  | .proceed callId =>
    let upd := updateWithHumanReview store clients writeFails callId
      (finalLabelOf w) (commentOf w)
    ⟨upd.1, .jsonStatus "ok", upd.2.1, upd.2.2.2⟩

/-- n sequential replays of the same webhook: final store and every payload
broadcast across the replays. -/
def replayHandler (clients : List ClientId) (writeFails : ClientId → Bool)
    (w : Webhook) : Nat → List EmailRecord → List EmailRecord × List UpdateEvent
  | 0, s => (s, [])
  | n + 1, s =>
    let res := webhookHandler s clients writeFails w
    let rest := replayHandler clients writeFails w n res.store
    (rest.1, res.event.toList ++ rest.2)

/-- Messages the /sse route writes to one client (data: frames; the
": heartbeat" comment frames are represented by the interval being set,
not as messages). -/
inductive SseMsg where
  | test
  | initialData (rows : List EmailRecord)
  | update (ev : UpdateEvent)
  | snapshotError
deriving Repr, DecidableEq

/-- The /sse route's snapshot retry loop (retries = 3; while retries > 0:
query, on success write the initialData frame and break; on failure
retries--, and when retries hits 0 write the Failed-to-load frame, else
wait 1s and retry).  oracle k is the outcome of the k-th query attempt
(none = the attempt throws).  Arguments: retries remaining, attempt index.
Result: frames written by the loop, number of attempts made.  The fixed 1s
backoff between attempts is real time and is not modelled. -/
def snapshotRetryLoop (oracle : Nat → Option (List EmailRecord)) :
    Nat → Nat → List SseMsg × Nat
  | 0, _ => ([], 0)
  | r + 1, k =>
    match oracle k with
    | some rows => ([.initialData rows], 1)
    | none =>
      if r = 0 then ([.snapshotError], 1)
      else
        let rest := snapshotRetryLoop oracle r (k + 1)
        (rest.1, rest.2 + 1)

/-- The /sse route, serialized: push the new client onto sseClients first,
write the test frame, then run the snapshot retry loop, then install the
30s heartbeat interval.  Result: registry afterwards, frames written to the
new client, attempts made, heartbeat installed. -/
def sseConnect (clients : List ClientId) (newClient : ClientId)
    (oracle : Nat → Option (List EmailRecord)) :
    List ClientId × List SseMsg × Nat × Bool :=
  let clients2 := clients ++ [newClient]
  let snap := snapshotRetryLoop oracle 3 0
  (clients2, .test :: snap.1, snap.2, true)

/-- Modelled from the spec: classificationValues, the fixed, closed label
vocabulary, is defined in common.js, which is not part of this repository
snapshot (only its import is).  The spec names "read" as the designated
default label and uses "important" and "spam" as vocabulary members in its
scenarios. -/
def classificationValues : List String :=
  ["read", "important", "spam"]

/-!
Interleaved executions.  Node runs the handlers on one event loop and
yields at each await, so concurrency is modelled by interleaving the
handlers' atomic phases: one phase for the validation + SELECT status
query, one for the UPDATE query together with the broadcast that follows
it.  (Merging the UPDATE and the broadcast into one atomic phase only
removes interleavings, so any behaviour exhibited below also occurs in the
finer-grained program.)
-/

/-- Progress of one in-flight webhookHandler invocation. -/
inductive TaskPhase where
  | start
  | willUpdate (callId : String)
  | finished (resp : WebhookResponse) (emitted : Bool)
deriving Repr, DecidableEq

/-- One atomic phase of a webhookHandler invocation against the shared
store: from start, run the validation + SELECT status (checkPhase); from
willUpdate, run the UPDATE and, when rows matched, broadcast the payload.
Broadcast delivery to individual clients is not tracked here (writes are
assumed not to throw); the emitted payloads are returned.  A finished task
does not move. -/
def stepTask (w : Webhook) (store : List EmailRecord) :
    TaskPhase → TaskPhase × List EmailRecord × List UpdateEvent
  | .start =>
    match checkPhase store w with
    | .earlyExit resp => (.finished resp false, store, [])
    | .proceed callId => (.willUpdate callId, store, [])
  | .willUpdate callId =>
    let upd := sqlUpdateCompleted store callId (finalLabelOf w) (commentOf w)
    if upd.2 = 0 then (.finished (.jsonStatus "ok") false, upd.1, [])
    else (.finished (.jsonStatus "ok") true, upd.1,
      [⟨callId, finalLabelOf w, commentOf w⟩])
  | .finished resp e => (.finished resp e, store, [])

/-- Shared state of two concurrent webhookHandler invocations. -/
structure TwoTasks where
  store : List EmailRecord
  p1 : TaskPhase
  p2 : TaskPhase
  events : List UpdateEvent
deriving Repr, DecidableEq

/-- Run two concurrent webhookHandler invocations under a schedule:
false steps the first task, true the second; events accumulate in
broadcast order. -/
def runTwo (w1 w2 : Webhook) : List Bool → TwoTasks → TwoTasks
  | [], st => st
  | b :: rest, st =>
    if b then
      let s := stepTask w2 st.store st.p2
      runTwo w1 w2 rest ⟨s.2.1, st.p1, s.1, st.events ++ s.2.2⟩
    else
      let s := stepTask w1 st.store st.p1
      runTwo w1 w2 rest ⟨s.2.1, s.1, st.p2, st.events ++ s.2.2⟩

/-- Progress of one in-flight /sse connection: 0 = not yet started, 1 =
pushed onto sseClients and test frame written (before the snapshot query),
2 = snapshot frame written. -/
abbrev SubPhase := Nat

/-- Shared state of one /sse connection racing one webhookHandler
invocation.  registered: whether the new client is in sseClients; inbox:
frames written to the new client. -/
structure SubRace where
  store : List EmailRecord
  subPhase : SubPhase
  registered : Bool
  inbox : List SseMsg
  task : TaskPhase
  events : List UpdateEvent
deriving Repr, DecidableEq

/-- One atomic phase of the /sse connection: phase 0 pushes the client and
writes the test frame (synchronous block before the first await); phase 1
runs the snapshot query (assumed to succeed first try here; the retry loop
is modelled separately) and writes the initialData frame with the rows the
query returned. -/
def stepSub (st : SubRace) : SubRace :=
  match st.subPhase with
  | 0 => { st with subPhase := 1, registered := true, inbox := st.inbox ++ [.test] }
  | 1 => { st with subPhase := 2, inbox := st.inbox ++ [.initialData st.store] }
  | _ => st

/-- One atomic phase of the racing webhookHandler invocation; when it
broadcasts, the new client receives the update frame exactly when it is
registered at broadcast time. -/
def stepWeb (w : Webhook) (st : SubRace) : SubRace :=
  let s := stepTask w st.store st.task
  let delivered := if st.registered then s.2.2.map SseMsg.update else []
  { st with store := s.2.1, task := s.1,
            events := st.events ++ s.2.2, inbox := st.inbox ++ delivered }

/-- Run the /sse connection and the webhookHandler invocation under a
schedule: false steps the connection, true the handler. -/
def runSubRace (w : Webhook) : List Bool → SubRace → SubRace
  | [], st => st
  | b :: rest, st =>
    if b then runSubRace w rest (stepWeb w st)
    else runSubRace w rest (stepSub st)

/-- Is the response a client-error-class (HTTP 400) response? -/
def isClientError : WebhookResponse → Bool
  | .badRequest _ _ => true
  | .jsonStatus _ => false

/-- A concrete pending row, as storeEmailClassification inserts it. -/
def sampleRecord : EmailRecord :=
  ⟨"r1", "s", "b", "alice", "bob", "spam", none, none, false, "pending"⟩

/-- An approving callback for sampleRecord (HumanLayer echoes spec.kwargs
back, so classification carries the proposed label). -/
def approveWebhook : Webhook :=
  ⟨some ⟨some "r1", some "spam"⟩, some ⟨some true, none⟩⟩

/-- sampleRecord after the approving completion. -/
def sampleCompleted : EmailRecord := applyUpdate "spam" "" sampleRecord

/-- The payload broadcast for sampleRecord's approving completion. -/
def sampleEvent : UpdateEvent := ⟨"r1", "spam", ""⟩

/-! Helper lemmas about the store operations and the broadcaster. -/

@[simp] lemma applyUpdate_id (l c : String) (r : EmailRecord) :
    (applyUpdate l c r).id = r.id := rfl

lemma getRecord_sqlUpdate (store : List EmailRecord) (cid l c : String)
    (r : EmailRecord) (h : getRecord store cid = some r) :
    getRecord (sqlUpdateCompleted store cid l c).1 cid = some (applyUpdate l c r) := by
  induction store with
  | nil => simp [getRecord] at h
  | cons a rest ih =>
    by_cases ha : a.id = cid
    · have hr : a = r := by simpa [getRecord, ha] using h
      subst hr
      simp [getRecord, sqlUpdateCompleted, ha]
    · have h' : getRecord rest cid = some r := by
        simpa [getRecord, ha] using h
      have hrec := ih h'
      simp only [sqlUpdateCompleted, List.map_cons] at hrec ⊢
      simpa [getRecord, ha] using hrec

lemma sqlUpdate_matched_ne_zero (store : List EmailRecord) (cid l c : String)
    (r : EmailRecord) (h : getRecord store cid = some r) :
    (sqlUpdateCompleted store cid l c).2 ≠ 0 := by
  induction store with
  | nil => simp [getRecord] at h
  | cons a rest ih =>
    by_cases ha : a.id = cid
    · simp [sqlUpdateCompleted, List.filter_cons, ha]
    · have h' : getRecord rest cid = some r := by
        simpa [getRecord, ha] using h
      have hrec := ih h'
      simpa [sqlUpdateCompleted, List.filter_cons, ha] using hrec

lemma broadcast_all_ok (clients : List ClientId) (wfail : ClientId → Bool)
    (h : ∀ c ∈ clients, wfail c = false) :
    broadcastSseEvent clients wfail = (clients, none) := by
  induction clients with
  | nil => rfl
  | cons a rest ih =>
    have ha : wfail a = false := h a (by simp)
    have hr := ih (fun c hc => h c (by simp [hc]))
    simp [broadcastSseEvent, ha, hr]

lemma broadcast_first_failure (pre : List ClientId) (f : ClientId)
    (post : List ClientId) (wfail : ClientId → Bool)
    (hpre : ∀ c ∈ pre, wfail c = false) (hf : wfail f = true) :
    broadcastSseEvent (pre ++ f :: post) wfail = (pre, some f) := by
  induction pre with
  | nil => simp [broadcastSseEvent, hf]
  | cons a rest ih =>
    have ha : wfail a = false := hpre a (by simp)
    have hr := ih (fun c hc => hpre c (by simp [hc]))
    simp [broadcastSseEvent, ha, hr]

lemma checkPhase_pending (store : List EmailRecord) (w : Webhook)
    (kw : WebhookKwargs) (cid : String) (r : EmailRecord)
    (h1 : w.specKwargs = some kw) (h2 : kw.call_id = some cid) (h3 : cid ≠ "")
    (h4 : getRecord store cid = some r) (h5 : r.status = "pending") :
    checkPhase store w = .proceed cid := by
  simp [checkPhase, h1, h2, truthyStr, h3, h4, h5]

lemma checkPhase_completed (store : List EmailRecord) (w : Webhook)
    (kw : WebhookKwargs) (cid : String) (r : EmailRecord)
    (h1 : w.specKwargs = some kw) (h2 : kw.call_id = some cid) (h3 : cid ≠ "")
    (h4 : getRecord store cid = some r) (h5 : r.status = "completed") :
    checkPhase store w = .earlyExit (.jsonStatus "already processed") := by
  simp [checkPhase, h1, h2, truthyStr, h3, h4, h5]

lemma webhookHandler_pending (store : List EmailRecord) (clients : List ClientId)
    (wfail : ClientId → Bool) (w : Webhook) (kw : WebhookKwargs) (cid : String)
    (r : EmailRecord)
    (h1 : w.specKwargs = some kw) (h2 : kw.call_id = some cid) (h3 : cid ≠ "")
    (h4 : getRecord store cid = some r) (h5 : r.status = "pending") :
    webhookHandler store clients wfail w =
      ⟨(sqlUpdateCompleted store cid (finalLabelOf w) (commentOf w)).1,
        .jsonStatus "ok",
        some ⟨cid, finalLabelOf w, commentOf w⟩,
        (broadcastSseEvent clients wfail).1⟩ := by
  have hc := checkPhase_pending store w kw cid r h1 h2 h3 h4 h5
  have hm := sqlUpdate_matched_ne_zero store cid (finalLabelOf w) (commentOf w) r h4
  simp [webhookHandler, hc, updateWithHumanReview, hm]

lemma snapshotRetryLoop_le (oracle : Nat → Option (List EmailRecord)) :
    ∀ r k, (snapshotRetryLoop oracle r k).2 ≤ r := by
  intro r
  induction r with
  | zero => intro k; simp [snapshotRetryLoop]
  | succ m ih =>
    intro k
    cases h : oracle k with
    | some rows => simp [snapshotRetryLoop, h]
    | none =>
      by_cases hm : m = 0
      · simp [snapshotRetryLoop, h, hm]
      · have := ih (k + 1)
        simp [snapshotRetryLoop, h, hm]
        omega

lemma snapshotRetryLoop_allfail (oracle : Nat → Option (List EmailRecord))
    (h0 : oracle 0 = none) (h1 : oracle 1 = none) (h2 : oracle 2 = none) :
    snapshotRetryLoop oracle 3 0 = ([.snapshotError], 3) := by
  simp [snapshotRetryLoop, h0, h1, h2]

/-- The label an approved callback yields: the callback's own
spec.kwargs.classification when truthy, the "read" fallback otherwise. -/
def labelFromKwargs (kw : WebhookKwargs) : String :=
  match kw.classification with
  | some v => if v = "" then "read" else v
  | none => "read"

/-- The label a manual-classify comment yields: the comment with the first
occurrence of "manual classify: " removed, or "read" if that leaves the
empty string. -/
def overrideLabel (c : String) : String :=
  let t := jsReplace c "manual classify: " ""
  if t = "" then "read" else t

/-- A rejecting callback whose comment carries a manual-classify token that
is outside the label vocabulary. -/
def bogusOverride : Webhook :=
  ⟨some ⟨some "r1", none⟩, some ⟨some false, some "manual classify: bogus"⟩⟩

/-- A rejecting callback whose comment carries the spec's vocabulary token
"important". -/
def importantOverride : Webhook :=
  ⟨some ⟨some "r1", none⟩, some ⟨some false, some "manual classify: important"⟩⟩

/-- An approving callback whose spec.kwargs.classification is a
caller-supplied value outside the vocabulary and different from the stored
proposed label. -/
def bogusApprove : Webhook :=
  ⟨some ⟨some "r1", some "totally-bogus"⟩, some ⟨some true, some "lgtm"⟩⟩

/-- A rejecting callback whose comment carries no recognized override
marker. -/
def freeTextReject : Webhook :=
  ⟨some ⟨some "r1", none⟩, some ⟨some false, some "please take another look"⟩⟩

/-- Claim C2: replaying a callback whose record is already completed is
idempotent: each replay leaves the store unchanged, answers with the
"already processed" acknowledgment, and broadcasts no UpdateEvent, for any
number of replays. -/
theorem c2_replay_idempotent (store : List EmailRecord) (clients : List ClientId)
    (wfail : ClientId → Bool) (w : Webhook) (kw : WebhookKwargs) (cid : String)
    (r : EmailRecord) (n : Nat)
    (h1 : w.specKwargs = some kw) (h2 : kw.call_id = some cid) (h3 : cid ≠ "")
    (h4 : getRecord store cid = some r) (h5 : r.status = "completed") :
    webhookHandler store clients wfail w =
      ⟨store, .jsonStatus "already processed", none, []⟩ ∧
    replayHandler clients wfail w n store = (store, []) := by
  have hstep : webhookHandler store clients wfail w =
      ⟨store, .jsonStatus "already processed", none, []⟩ := by
    have hc := checkPhase_completed store w kw cid r h1 h2 h3 h4 h5
    simp [webhookHandler, hc]
  refine ⟨hstep, ?_⟩
  induction n with
  | zero => rfl
  | succ m ih => simp [replayHandler, hstep, ih]

/-- Witness for C2: five replays of the approving callback against the
already completed record leave everything unchanged and emit nothing. -/
theorem c2_witness :
    webhookHandler [sampleCompleted] [0] (fun _ => false) approveWebhook =
      ⟨[sampleCompleted], .jsonStatus "already processed", none, []⟩ ∧
    replayHandler [0] (fun _ => false) approveWebhook 5 [sampleCompleted] =
      ([sampleCompleted], []) :=
  c2_replay_idempotent [sampleCompleted] [0] (fun _ => false) approveWebhook
    ⟨some "r1", some "spam"⟩ "r1" sampleCompleted 5 rfl rfl (by decide)
    (by decide) rfl

/-- Claim C3 counterexample: on a pending record, a non-approving callback
whose comment is "manual classify: bogus" stores "bogus" as the final
label even though "bogus" is not in the label vocabulary — the claimed
vocabulary guard does not exist in the handler. -/
theorem c3_counterexample :
    (webhookHandler [sampleRecord] [] (fun _ => false) bogusOverride).event =
      some ⟨"r1", "bogus", "manual classify: bogus"⟩ ∧
    getRecord (webhookHandler [sampleRecord] [] (fun _ => false)
        bogusOverride).store "r1" =
      some (applyUpdate "bogus" "manual classify: bogus" sampleRecord) ∧
    ¬ ("bogus" ∈ classificationValues) := by
  refine ⟨by decide, by decide, by decide⟩

/-- Claim C3 amended: for a non-approving callback on a pending record
whose comment contains "manual classify:", the final label is the comment
with the first "manual classify: " occurrence removed (or "read" if that
leaves the empty string), with no vocabulary check of any kind. -/
theorem c3_amended_override_unchecked (store : List EmailRecord)
    (clients : List ClientId) (wfail : ClientId → Bool) (w : Webhook)
    (kw : WebhookKwargs) (cid : String) (r : EmailRecord) (c : String)
    (h1 : w.specKwargs = some kw) (h2 : kw.call_id = some cid) (h3 : cid ≠ "")
    (h4 : getRecord store cid = some r) (h5 : r.status = "pending")
    (h6 : w.status.bind (fun st => st.approved) ≠ some true)
    (h7 : w.status.bind (fun st => st.comment) = some c)
    (h8 : jsIncludes c "manual classify:" = true) :
    (webhookHandler store clients wfail w).response = .jsonStatus "ok" ∧
    (webhookHandler store clients wfail w).event =
      some ⟨cid, overrideLabel c, c⟩ ∧
    getRecord (webhookHandler store clients wfail w).store cid =
      some (applyUpdate (overrideLabel c) c r) := by
  have hd : deriveHumanClassification w =
      some (jsReplace c "manual classify: " "") := by
    simp only [deriveHumanClassification, h1]
    rw [if_neg h6]
    simp only [h7, h8]
    simp
  have hlabel : finalLabelOf w = overrideLabel c := by
    simp only [finalLabelOf, overrideLabel, hd]
  have hcomment : commentOf w = c := by simp [commentOf, h7]
  have hh := webhookHandler_pending store clients wfail w kw cid r h1 h2 h3 h4 h5
  rw [hh]
  simp [hlabel, hcomment,
    getRecord_sqlUpdate store cid (overrideLabel c) c r h4]

/-- Witness for C3 amended: the spec's own scenario, comment
"manual classify: important", yields final label "important". -/
theorem c3_amended_witness :
    (webhookHandler [sampleRecord] [] (fun _ => false)
        importantOverride).response = .jsonStatus "ok" ∧
    (webhookHandler [sampleRecord] [] (fun _ => false) importantOverride).event =
      some ⟨"r1", overrideLabel "manual classify: important",
        "manual classify: important"⟩ ∧
    getRecord (webhookHandler [sampleRecord] [] (fun _ => false)
        importantOverride).store "r1" =
      some (applyUpdate (overrideLabel "manual classify: important")
        "manual classify: important" sampleRecord) :=
  c3_amended_override_unchecked [sampleRecord] [] (fun _ => false)
    importantOverride ⟨some "r1", none⟩ "r1" sampleRecord
    "manual classify: important" rfl rfl (by decide) (by decide) rfl
    (by decide) rfl (by decide)

/-- Claim C6: a callback on a pending record that does not approve and
whose comment carries no override marker completes the record with the
default label "read", stores the comment verbatim, and answers "ok". -/
theorem c6_default_fallback (store : List EmailRecord) (clients : List ClientId)
    (wfail : ClientId → Bool) (w : Webhook) (kw : WebhookKwargs) (cid : String)
    (r : EmailRecord) (c : String)
    (h1 : w.specKwargs = some kw) (h2 : kw.call_id = some cid) (h3 : cid ≠ "")
    (h4 : getRecord store cid = some r) (h5 : r.status = "pending")
    (h6 : w.status.bind (fun st => st.approved) ≠ some true)
    (h7 : w.status.bind (fun st => st.comment) = some c)
    (h8 : jsIncludes c "manual classify:" = false) :
    (webhookHandler store clients wfail w).response = .jsonStatus "ok" ∧
    (webhookHandler store clients wfail w).event = some ⟨cid, "read", c⟩ ∧
    getRecord (webhookHandler store clients wfail w).store cid =
      some (applyUpdate "read" c r) := by
  have hd : deriveHumanClassification w = none := by
    simp only [deriveHumanClassification, h1]
    rw [if_neg h6]
    simp only [h7, h8]
    simp
  have hlabel : finalLabelOf w = "read" := by
    simp only [finalLabelOf, hd]
  have hcomment : commentOf w = c := by simp [commentOf, h7]
  have hh := webhookHandler_pending store clients wfail w kw cid r h1 h2 h3 h4 h5
  rw [hh]
  simp [hlabel, hcomment, getRecord_sqlUpdate store cid "read" c r h4]

/-- Witness for C6: an unrecognized free-text comment on the pending
sample record falls back to "read" and stores the comment verbatim. -/
theorem c6_witness :
    (webhookHandler [sampleRecord] [] (fun _ => false)
        freeTextReject).response = .jsonStatus "ok" ∧
    (webhookHandler [sampleRecord] [] (fun _ => false) freeTextReject).event =
      some ⟨"r1", "read", "please take another look"⟩ ∧
    getRecord (webhookHandler [sampleRecord] [] (fun _ => false)
        freeTextReject).store "r1" =
      some (applyUpdate "read" "please take another look" sampleRecord) :=
  c6_default_fallback [sampleRecord] [] (fun _ => false) freeTextReject
    ⟨some "r1", none⟩ "r1" sampleRecord "please take another look"
    rfl rfl (by decide) (by decide) rfl (by decide) rfl (by decide)

/-- Claim C7: a callback whose id has no record is acknowledged with the
non-error "no record found" response; the store is unchanged and no
UpdateEvent is broadcast. -/
theorem c7_unknown_correlation_benign (store : List EmailRecord)
    (clients : List ClientId) (wfail : ClientId → Bool) (w : Webhook)
    (kw : WebhookKwargs) (cid : String)
    (h1 : w.specKwargs = some kw) (h2 : kw.call_id = some cid) (h3 : cid ≠ "")
    (h4 : getRecord store cid = none) :
    webhookHandler store clients wfail w =
      ⟨store, .jsonStatus "no record found", none, []⟩ := by
  simp [webhookHandler, checkPhase, h1, h2, truthyStr, h3, h4]

/-- Witness for C7: the spec's unknown-id scenario, id "r-missing". -/
theorem c7_witness :
    webhookHandler [sampleRecord] [0] (fun _ => false)
        ⟨some ⟨some "r-missing", none⟩, some ⟨some true, none⟩⟩ =
      ⟨[sampleRecord], .jsonStatus "no record found", none, []⟩ :=
  c7_unknown_correlation_benign [sampleRecord] [0] (fun _ => false)
    ⟨some ⟨some "r-missing", none⟩, some ⟨some true, none⟩⟩
    ⟨some "r-missing", none⟩ "r-missing" rfl rfl (by decide) (by decide)

/-- Claim C8: a callback missing spec.kwargs, or whose kwargs carry no
(truthy) call_id, is rejected with a 400-class response before any store
access: the store is unchanged, no event is broadcast, nothing is
delivered, and the response does not depend on the store at all. -/
theorem c8_malformed_rejected (s1 s2 : List EmailRecord)
    (clients : List ClientId) (wfail : ClientId → Bool) (w : Webhook)
    (h : w.specKwargs = none ∨
      ∃ kw, w.specKwargs = some kw ∧ truthyStr kw.call_id = false) :
    (webhookHandler s1 clients wfail w).store = s1 ∧
    isClientError (webhookHandler s1 clients wfail w).response = true ∧
    (webhookHandler s1 clients wfail w).event = none ∧
    (webhookHandler s1 clients wfail w).delivered = [] ∧
    (webhookHandler s2 clients wfail w).response =
      (webhookHandler s1 clients wfail w).response := by
  rcases h with h | ⟨kw, hkw, hcid⟩
  · simp [webhookHandler, checkPhase, h, isClientError]
  · simp [webhookHandler, checkPhase, hkw, hcid, isClientError]

/-- Witness for C8: a callback with kwargs but no call_id is rejected the
same way over two different stores, touching neither. -/
theorem c8_witness :
    (webhookHandler [sampleRecord] [0] (fun _ => false)
        ⟨some ⟨none, none⟩, none⟩).store = [sampleRecord] ∧
    isClientError (webhookHandler [sampleRecord] [0] (fun _ => false)
        ⟨some ⟨none, none⟩, none⟩).response = true ∧
    (webhookHandler [sampleRecord] [0] (fun _ => false)
        ⟨some ⟨none, none⟩, none⟩).event = none ∧
    (webhookHandler [sampleRecord] [0] (fun _ => false)
        ⟨some ⟨none, none⟩, none⟩).delivered = [] ∧
    (webhookHandler [] [0] (fun _ => false)
        ⟨some ⟨none, none⟩, none⟩).response =
      (webhookHandler [sampleRecord] [0] (fun _ => false)
        ⟨some ⟨none, none⟩, none⟩).response :=
  c8_malformed_rejected [sampleRecord] [] [0] (fun _ => false)
    ⟨some ⟨none, none⟩, none⟩ (Or.inr ⟨⟨none, none⟩, rfl, rfl⟩)

/-- Claim C10: for an approved callback on a pending record, the final
label is taken from the callback's own spec.kwargs.classification (any
caller-supplied value, for any stored proposed label), falling back to
"read" when that field is absent or empty. -/
theorem c10_approved_label_from_callback (store : List EmailRecord)
    (clients : List ClientId) (wfail : ClientId → Bool) (w : Webhook)
    (kw : WebhookKwargs) (cid : String) (r : EmailRecord)
    (h1 : w.specKwargs = some kw) (h2 : kw.call_id = some cid) (h3 : cid ≠ "")
    (h4 : getRecord store cid = some r) (h5 : r.status = "pending")
    (h6 : w.status.bind (fun st => st.approved) = some true) :
    (webhookHandler store clients wfail w).response = .jsonStatus "ok" ∧
    (webhookHandler store clients wfail w).event =
      some ⟨cid, labelFromKwargs kw, commentOf w⟩ ∧
    getRecord (webhookHandler store clients wfail w).store cid =
      some (applyUpdate (labelFromKwargs kw) (commentOf w) r) := by
  have hd : deriveHumanClassification w = kw.classification := by
    simp only [deriveHumanClassification, h1]
    rw [if_pos h6]
  have hlabel : finalLabelOf w = labelFromKwargs kw := by
    simp only [finalLabelOf, labelFromKwargs, hd]
  have hh := webhookHandler_pending store clients wfail w kw cid r h1 h2 h3 h4 h5
  rw [hh]
  simp [hlabel,
    getRecord_sqlUpdate store cid (labelFromKwargs kw) (commentOf w) r h4]

/-- Witness for C10: an approved callback carrying classification
"totally-bogus" — outside the vocabulary and different from the stored
proposed label "spam" — stores "totally-bogus" as the final label. -/
theorem c10_witness :
    ((webhookHandler [sampleRecord] [] (fun _ => false)
        bogusApprove).response = .jsonStatus "ok" ∧
      (webhookHandler [sampleRecord] [] (fun _ => false) bogusApprove).event =
        some ⟨"r1", labelFromKwargs ⟨some "r1", some "totally-bogus"⟩,
          commentOf bogusApprove⟩ ∧
      getRecord (webhookHandler [sampleRecord] [] (fun _ => false)
          bogusApprove).store "r1" =
        some (applyUpdate (labelFromKwargs ⟨some "r1", some "totally-bogus"⟩)
          (commentOf bogusApprove) sampleRecord)) ∧
    ¬ ("totally-bogus" ∈ classificationValues) ∧
    "totally-bogus" ≠ sampleRecord.classification :=
  ⟨c10_approved_label_from_callback [sampleRecord] [] (fun _ => false)
      bogusApprove ⟨some "r1", some "totally-bogus"⟩ "r1" sampleRecord
      rfl rfl (by decide) (by decide) rfl rfl,
    by decide, by decide⟩

/-- Claim C5 counterexample: with registry [0, 1] and client 0's write
throwing, a completing update delivers the event to nobody — client 1, a
healthy later subscriber, is skipped — and client 0 stays registered, so
neither the delivery-to-others part nor the removal part of the claim
holds in the code's forEach broadcast. -/
theorem c5_counterexample :
    updateWithHumanReview [sampleRecord] [0, 1] (fun c => c == 0)
        "r1" "spam" "" =
      ([sampleCompleted], some sampleEvent, [0, 1], []) ∧
    (1 : ClientId) ∉
      (updateWithHumanReview [sampleRecord] [0, 1] (fun c => c == 0)
        "r1" "spam" "").2.2.2 ∧
    (0 : ClientId) ∈
      (updateWithHumanReview [sampleRecord] [0, 1] (fun c => c == 0)
        "r1" "spam" "").2.2.1 := by
  refine ⟨by decide, by decide, by decide⟩

/-- Claim C5 amended: a write failure on one subscriber aborts the forEach
broadcast: subscribers registered before the failing one still receive the
event, subscribers after it do not, the failing subscriber is not removed
from the registry, and the thrown error is caught inside
updateWithHumanReview, so the broadcaster's caller does not crash and the
store update itself stands. -/
theorem c5_amended_broadcast_aborts (store : List EmailRecord)
    (pre post : List ClientId) (f : ClientId) (wfail : ClientId → Bool)
    (cid l c : String) (r : EmailRecord)
    (hpre : ∀ a ∈ pre, wfail a = false) (hf : wfail f = true)
    (h : getRecord store cid = some r) :
    updateWithHumanReview store (pre ++ f :: post) wfail cid l c =
      ((sqlUpdateCompleted store cid l c).1, some ⟨cid, l, c⟩,
        pre ++ f :: post, pre) := by
  have hm := sqlUpdate_matched_ne_zero store cid l c r h
  have hb := broadcast_first_failure pre f post wfail hpre hf
  simp [updateWithHumanReview, hm, hb]

/-- Witness for C5 amended: registry [7, 3, 9] with client 3's write
throwing: 7 is delivered to, 9 is not, 3 stays registered. -/
theorem c5_amended_witness :
    updateWithHumanReview [sampleRecord] [7, 3, 9] (fun c => c == 3)
        "r1" "spam" "" =
      ((sqlUpdateCompleted [sampleRecord] "r1" "spam" "").1,
        some ⟨"r1", "spam", ""⟩, [7, 3, 9], [7]) :=
  c5_amended_broadcast_aborts [sampleRecord] [7] [9] 3 (fun c => c == 3)
    "r1" "spam" "" sampleRecord (by decide) rfl (by decide)

/-- Claim C9: on subscribe, the snapshot read makes at most 3 attempts;
when all three fail, the route writes the snapshot-unavailable frame, yet
the subscriber is already registered, the heartbeat is installed, and a
later broadcast still reaches it. -/
theorem c9_snapshot_retry (clients : List ClientId) (newClient : ClientId)
    (oracle : Nat → Option (List EmailRecord)) :
    (sseConnect clients newClient oracle).2.2.1 ≤ 3 ∧
    (oracle 0 = none → oracle 1 = none → oracle 2 = none →
      (sseConnect clients newClient oracle).2.1 = [.test, .snapshotError] ∧
      (sseConnect clients newClient oracle).1 = clients ++ [newClient] ∧
      (sseConnect clients newClient oracle).2.2.2 = true ∧
      (broadcastSseEvent (sseConnect clients newClient oracle).1
        (fun _ => false)).1 = clients ++ [newClient]) := by
  constructor
  · simpa [sseConnect] using snapshotRetryLoop_le oracle 3 0
  · intro h0 h1 h2
    have hl := snapshotRetryLoop_allfail oracle h0 h1 h2
    have hb := broadcast_all_ok (clients ++ [newClient]) (fun _ => false)
      (fun c _ => rfl)
    simp [sseConnect, hl, hb]

/-- Witness for C9: an always-failing store: three attempts, the
unavailable frame, and the client still registered and reachable. -/
theorem c9_witness :
    (sseConnect [4] 0 (fun _ => none)).2.2.1 ≤ 3 ∧
    ((fun (_ : Nat) => (none : Option (List EmailRecord))) 0 = none →
      (fun (_ : Nat) => (none : Option (List EmailRecord))) 1 = none →
      (fun (_ : Nat) => (none : Option (List EmailRecord))) 2 = none →
      (sseConnect [4] 0 (fun _ => none)).2.1 = [.test, .snapshotError] ∧
      (sseConnect [4] 0 (fun _ => none)).1 = [4] ++ [0] ∧
      (sseConnect [4] 0 (fun _ => none)).2.2.2 = true ∧
      (broadcastSseEvent (sseConnect [4] 0 (fun _ => none)).1
        (fun _ => false)).1 = [4] ++ [0]) :=
  c9_snapshot_retry [4] 0 (fun _ => none)

/-- Claim C1 at its failing input: one pending record r1 and two identical
approving callbacks racing so that both SELECTs run before either UPDATE.
Both tasks finish with the success response having performed the UPDATE —
the UPDATE carries no status guard in its WHERE clause — and two
UpdateEvents are broadcast for the same id; neither caller observes the
already-completed outcome. -/
theorem c1_interleaved_double_event :
    (runTwo approveWebhook approveWebhook [false, true, false, true]
        ⟨[sampleRecord], .start, .start, []⟩).events =
      [sampleEvent, sampleEvent] ∧
    (runTwo approveWebhook approveWebhook [false, true, false, true]
        ⟨[sampleRecord], .start, .start, []⟩).p1 =
      .finished (.jsonStatus "ok") true ∧
    (runTwo approveWebhook approveWebhook [false, true, false, true]
        ⟨[sampleRecord], .start, .start, []⟩).p2 =
      .finished (.jsonStatus "ok") true := by
  refine ⟨by decide, by decide, by decide⟩

/-- Initial state for the subscribe-vs-complete race: one pending record,
a fresh /sse connection not yet started, the approving callback not yet
handled. -/
def subInit : SubRace := ⟨[sampleRecord], 0, false, [], .start, []⟩

lemma stepTask_start_eval :
    stepTask approveWebhook [sampleRecord] .start =
      (.willUpdate "r1", [sampleRecord], []) := by decide

lemma stepTask_update_eval :
    stepTask approveWebhook [sampleRecord] (.willUpdate "r1") =
      (.finished (.jsonStatus "ok") true, [sampleCompleted], [sampleEvent]) := by
  decide

lemma stepTask_finished_eval (s : List EmailRecord) (resp : WebhookResponse)
    (e : Bool) :
    stepTask approveWebhook s (.finished resp e) = (.finished resp e, s, []) :=
  rfl

/-- Inductive invariant of the subscribe-vs-complete race from subInit:
once the connection has done its first phase it is registered; the task
only ever passes through the three expected phases; the store tracks the
task's progress; and once both the snapshot frame is out and the task has
completed, the subscriber has observed the completion (in the snapshot or
as a pushed update). -/
def SubInv (st : SubRace) : Prop :=
  (1 ≤ st.subPhase → st.registered = true) ∧
  (st.task = .start ∨ st.task = .willUpdate "r1" ∨
    st.task = .finished (.jsonStatus "ok") true) ∧
  ((st.task = .start ∨ st.task = .willUpdate "r1") →
    st.store = [sampleRecord]) ∧
  (st.task = .finished (.jsonStatus "ok") true →
    st.store = [sampleCompleted]) ∧
  (st.subPhase = 2 → st.task = .finished (.jsonStatus "ok") true →
    SseMsg.initialData [sampleCompleted] ∈ st.inbox ∨
    SseMsg.update sampleEvent ∈ st.inbox)


lemma subInv_stepSub (st : SubRace) (h : SubInv st) : SubInv (stepSub st) := by
  obtain ⟨h1, h2, h3, h4, h5⟩ := h
  match hsp : st.subPhase with
  | 0 =>
    have hs : stepSub st = { st with subPhase := 1, registered := true,
                                     inbox := st.inbox ++ [.test] } := by
      simp [stepSub, hsp]
    rw [hs]
    refine ⟨fun _ => rfl, h2, h3, h4, fun hp _ => ?_⟩
    simp at hp
  | 1 =>
    have hs : stepSub st = { st with subPhase := 2,
                                     inbox := st.inbox ++ [.initialData st.store] } := by
      simp [stepSub, hsp]
    rw [hs]
    refine ⟨fun _ => h1 (le_of_eq hsp.symm), h2, h3, h4, fun _ ht => ?_⟩
    exact Or.inl (by simp [h4 ht])
  | n + 2 =>
    have hs : stepSub st = st := by simp [stepSub, hsp]
    rw [hs]
    exact ⟨h1, h2, h3, h4, h5⟩

lemma subInv_stepWeb (st : SubRace) (h : SubInv st) :
    SubInv (stepWeb approveWebhook st) := by
  obtain ⟨h1, h2, h3, h4, h5⟩ := h
  rcases h2 with ht | ht | ht
  · have hs : st.store = [sampleRecord] := h3 (Or.inl ht)
    have he : stepWeb approveWebhook st = { st with store := [sampleRecord],
                                                    task := .willUpdate "r1" } := by
      simp [stepWeb, ht, hs, stepTask_start_eval]
    rw [he]
    refine ⟨h1, Or.inr (Or.inl rfl), fun _ => rfl, ?_, ?_⟩
    · intro hcon; simp at hcon
    · intro _ hcon; simp at hcon
  · have hs : st.store = [sampleRecord] := h3 (Or.inr ht)
    have he : stepWeb approveWebhook st = { st with store := [sampleCompleted],
                                                    task := .finished (.jsonStatus "ok") true,
                                                    events := st.events ++ [sampleEvent],
                                                    inbox := st.inbox ++ (if st.registered then [SseMsg.update sampleEvent] else []) } := by
      simp [stepWeb, ht, hs, stepTask_update_eval]
    rw [he]
    refine ⟨h1, Or.inr (Or.inr rfl), ?_, fun _ => rfl, ?_⟩
    · intro hcon
      rcases hcon with hcon | hcon <;> simp at hcon
    · intro hp _
      have hp2 : st.subPhase = 2 := by simpa using hp
      have hreg : st.registered = true := h1 (by simp [hp2])
      exact Or.inr (by simp [hreg])
  · have he : stepWeb approveWebhook st = { st with
        inbox := st.inbox ++ (if st.registered then [] else []) } := by
      simp [stepWeb, ht, stepTask_finished_eval]
    rw [he]
    refine ⟨h1, Or.inr (Or.inr ht), h3, h4, ?_⟩
    intro hp hd
    rcases h5 hp hd with hm | hm
    · exact Or.inl (by simp [hm])
    · exact Or.inr (by simp [hm])

lemma subInv_run (sched : List Bool) :
    ∀ st, SubInv st → SubInv (runSubRace approveWebhook sched st) := by
  induction sched with
  | nil => intro st h; simpa [runSubRace] using h
  | cons b rest ih =>
    intro st h
    cases b with
    | false => simpa [runSubRace] using ih _ (subInv_stepSub st h)
    | true => simpa [runSubRace] using ih _ (subInv_stepWeb st h)

lemma subInv_init : SubInv subInit := by
  unfold SubInv
  decide

/-- Claim C4 counterexample: schedule — the connection registers and
writes its test frame; the approving callback then runs to completion,
pushing the update to the registered connection; the snapshot query runs
last.  The subscriber receives both the pushed UpdateEvent and a snapshot
already containing the completed record — the same transition is both in
the snapshot and pushed as an event — and the snapshot is not the
join-time state (the pending record never appears in it), so subscribe is
not the claimed atomic register-plus-point-in-time snapshot. -/
theorem c4_counterexample :
    (runSubRace approveWebhook [false, true, true, false] subInit).inbox =
      [.test, .update sampleEvent, .initialData [sampleCompleted]] ∧
    SseMsg.update sampleEvent ∈
      (runSubRace approveWebhook [false, true, true, false] subInit).inbox ∧
    SseMsg.initialData [sampleCompleted] ∈
      (runSubRace approveWebhook [false, true, true, false] subInit).inbox ∧
    SseMsg.initialData [sampleRecord] ∉
      (runSubRace approveWebhook [false, true, true, false] subInit).inbox := by
  refine ⟨by decide, by decide, by decide, by decide⟩

/-- Claim C4 amended: the /sse route registers the subscriber before
fetching the snapshot, and the snapshot reflects the store at read time,
so the subscriber view is complete — under every interleaving in which the
connection setup and a completing callback both finish, the subscriber
observes the completion at least once, in the snapshot or as a pushed
update — but it is not non-duplicated: a transition that lands between
registration and the snapshot read is received twice. -/
theorem c4_amended_complete_view (sched : List Bool)
    (hphase : (runSubRace approveWebhook sched subInit).subPhase = 2)
    (hdone : (runSubRace approveWebhook sched subInit).task =
      .finished (.jsonStatus "ok") true) :
    SseMsg.initialData [sampleCompleted] ∈
      (runSubRace approveWebhook sched subInit).inbox ∨
    SseMsg.update sampleEvent ∈
      (runSubRace approveWebhook sched subInit).inbox := by
  have hinv := subInv_run sched subInit subInv_init
  exact hinv.2.2.2.2 hphase hdone

/-- Witness for C4 amended: the callback completes before the connection
even registers; the subscriber still observes the completion, through the
snapshot. -/
theorem c4_amended_witness :
    SseMsg.initialData [sampleCompleted] ∈
      (runSubRace approveWebhook [true, true, false, false] subInit).inbox ∨
    SseMsg.update sampleEvent ∈
      (runSubRace approveWebhook [true, true, false, false] subInit).inbox :=
  c4_amended_complete_view [true, true, false, false] (by decide) (by decide)

end HumanReview
